import Mathlib

/-!
Verification of the two distribution modules of this repository:
`gluonts/distribution/multivariate_independent_gaussian.py` and
`gluonts/distribution/lowrank_gp.py`, shallowly embedded over exact real
arithmetic.  Tensors are embedded at the innermost (event) axis as
functions `Fin n → ℝ`; batch axes are handled by the host framework's
broadcasting and do not change the per-entry formulas.  Shape-level
behaviour (`batch_shape`, `event_shape`, reduction over the last axis) is
embedded separately as functions on shape lists.
-/

open scoped BigOperators

noncomputable section

/-- `softplus` activation `log(1 + exp z)`, the `softrelu` / `softplus`
activation used by both modules (`F.Activation(·, act_type='softrelu')` and
the `softplus` helper from `distribution.py`). -/
def softplus (z : ℝ) : ℝ := Real.log (1 + Real.exp z)

/-- Modelled from the spec: `inv_softplus`, imported by `lowrank_gp.py` from
`lowrank_multivariate_gaussian.py` (not under `src/`); the spec calls it
`inverse_softplus`, the functional inverse of the smooth positivity
activation `log(1+exp(z))`. -/
def inv_softplus (y : ℝ) : ℝ := Real.log (Real.exp y - 1)

/-- Modelled from the spec: the module-default `sigma_minimum` floor that
`lowrank_gp.py` imports from `lowrank_multivariate_gaussian.py` (not under
`src/`).  Its concrete value is irrelevant to the claims; it is the default
used when a caller does not pass `sigma_minimum`. -/
def defaultSigmaMinimum : ℝ := 1 / 1000

/-- Modelled from the spec: the error function `erf`, an "external numeric
primitive" (§6) provided by `gluonts.support.erf` (not under `src/`):
`erf x = (2/√π) · ∫ t in 0..x, exp (-t²)`. -/
def erf (x : ℝ) : ℝ := (2 / Real.sqrt Real.pi) * ∫ t in (0:ℝ)..x, Real.exp (-(t ^ 2))

/-- `MultivariateIndependentGaussian(mu, sigma, dim)`: the diagonal Gaussian
of `multivariate_independent_gaussian.py`, with the event axis embedded as
`Fin n → ℝ` and the optional `dim` argument kept as `Option ℕ`
(`dim: Optional[int] = None`). -/
structure MultivariateIndependentGaussian (n : ℕ) where
  mu : Fin n → ℝ
  sigma : Fin n → ℝ
  dim : Option ℕ

namespace MultivariateIndependentGaussian

/-- `log_prob(x) = -1.0 * (log σ + 0.5·log(2π) + 0.5·((x-μ)/σ)²).sum(axis=-1)`,
translated line for line from `MultivariateIndependentGaussian.log_prob`. -/
def log_prob (g : MultivariateIndependentGaussian n) (x : Fin n → ℝ) : ℝ :=
  -1.0 * ∑ i, (Real.log (g.sigma i)
    + 0.5 * Real.log (2 * Real.pi)
    + 0.5 * ((x i - g.mu i) / g.sigma i) ^ 2)

/-- `mean`: returns `self.mu`. -/
def mean (g : MultivariateIndependentGaussian n) : Fin n → ℝ := g.mu

/-- `stddev`: returns `self.sigma * F.eye(self.dim)`.  Broadcasting the
`(n,)`-shaped `sigma` against the `dim×dim` identity gives entry `(i,j)`
equal to `sigma j * eye i j`; when `dim` is `None` (`F.eye(None)` raises) or
does not broadcast against `sigma`'s length, the call fails, modelled as
`none`. -/
def stddev (g : MultivariateIndependentGaussian n) : Option (Fin n → Fin n → ℝ) :=
  match g.dim with
  | none => none
  | some d =>
    if d = n then
      some (fun i j => g.sigma j * (if i = j then (1:ℝ) else 0))
    else none

/-- `cdf(x) = (erf((x - mu) / (sigma * √2)) + 1) / 2`, translated from
`MultivariateIndependentGaussian.cdf` (elementwise `broadcast_minus`,
`broadcast_div`). -/
def cdf (g : MultivariateIndependentGaussian n) (x : Fin n → ℝ) : Fin n → ℝ :=
  fun i => (erf ((x i - g.mu i) / (g.sigma i * Real.sqrt 2)) + 1.0) / 2.0

/-- `sample`: `sample_normal(mu=self.mu, sigma=self.sigma)`; the host's
normal sampler is modelled by an explicit standard-normal noise argument
`z`, so a draw is `mu + sigma ⊙ z` (gradients detached, which is invisible
to the value-level semantics). -/
def sample (g : MultivariateIndependentGaussian n) (z : Fin n → ℝ) : Fin n → ℝ :=
  fun i => g.mu i + g.sigma i * z i

/-- `sample_rep`: draws `raw ~ N(0, 1)` and returns `sigma * raw + mu`,
translated from the inner closure `s` with explicit noise `z`. -/
def sample_rep (g : MultivariateIndependentGaussian n) (z : Fin n → ℝ) : Fin n → ℝ :=
  fun i => g.sigma i * z i + g.mu i

/-- `event_dim`: returns `1`. -/
def event_dim (_ : MultivariateIndependentGaussian n) : ℕ := 1

end MultivariateIndependentGaussian

/-- `batch_shape`: returns `self.mu.shape`, embedded at shape level (the
shape of `mu` as a list of axis lengths, outermost first). -/
def migBatchShape (muShape : List ℕ) : List ℕ := muShape

/-- `event_shape`: returns `self.mu.shape[:-1]` — all axes of `mu` except
the last. -/
def migEventShape (muShape : List ℕ) : List ℕ := muShape.dropLast

/-- Shape of `log_prob`'s output: the elementwise terms broadcast to
`mu.shape` and `.sum(axis=-1)` removes the last axis. -/
def migLogProbShape (muShape : List ℕ) : List ℕ := muShape.dropLast

/-- [C3] For every `mu`, every strictly positive `sigma`, and every `x`,
`log_prob(x)` equals `-Σ_d [log σ_d + ½·log(2π) + ½·((x_d-μ_d)/σ_d)²]`,
elementwise and summed over the event axis. -/
theorem C3_log_prob_formula {n : ℕ} (mu sigma : Fin n → ℝ) (dim : Option ℕ)
    (x : Fin n → ℝ) (hpos : ∀ i, 0 < sigma i) :
    (MultivariateIndependentGaussian.log_prob ⟨mu, sigma, dim⟩ x) =
      -∑ i, (Real.log (sigma i) + 0.5 * Real.log (2 * Real.pi)
        + 0.5 * ((x i - mu i) / sigma i) ^ 2) := by
  unfold MultivariateIndependentGaussian.log_prob
  norm_num

/-- Witness for [C3] at `n = 1`, `mu = 0`, `sigma = 1`, `x = 0`. -/
theorem C3_log_prob_formula_witness :
    (∀ i : Fin 1, (0:ℝ) < 1) ∧
      (MultivariateIndependentGaussian.log_prob
          (⟨fun _ => 0, fun _ => 1, none⟩ : MultivariateIndependentGaussian 1)
          (fun _ => 0) =
        -∑ _i : Fin 1, (Real.log 1 + 0.5 * Real.log (2 * Real.pi)
          + 0.5 * ((0 - 0) / 1) ^ 2)) :=
  ⟨fun _ => one_pos,
    C3_log_prob_formula (fun _ => 0) (fun _ => 1) none (fun _ => 0)
      (fun _ => one_pos)⟩

/-- The error function is monotone: for `a ≤ b`, `erf a ≤ erf b`, because the
Gaussian integrand is positive. -/
theorem erf_monotone {a b : ℝ} (hab : a ≤ b) : erf a ≤ erf b := by
  have hc : Continuous fun t : ℝ => Real.exp (-(t ^ 2)) :=
    Real.continuous_exp.comp (continuous_pow 2).neg
  have hadd :
      (∫ t in (0:ℝ)..a, Real.exp (-(t ^ 2)))
          + ∫ t in a..b, Real.exp (-(t ^ 2)) =
        ∫ t in (0:ℝ)..b, Real.exp (-(t ^ 2)) :=
    intervalIntegral.integral_add_adjacent_intervals
      (hc.intervalIntegrable 0 a) (hc.intervalIntegrable a b)
  have hseg : 0 ≤ ∫ t in a..b, Real.exp (-(t ^ 2)) :=
    intervalIntegral.integral_nonneg_of_forall hab fun t => (Real.exp_pos _).le
  have hle :
      (∫ t in (0:ℝ)..a, Real.exp (-(t ^ 2))) ≤
        ∫ t in (0:ℝ)..b, Real.exp (-(t ^ 2)) := by linarith
  have hcoef : (0:ℝ) ≤ 2 / Real.sqrt Real.pi :=
    div_nonneg (by norm_num) (Real.sqrt_nonneg _)
  exact mul_le_mul_of_nonneg_left hle hcoef

/-- `erf 0 = 0`: the integral over the empty interval vanishes. -/
theorem erf_zero : erf 0 = 0 := by
  simp [erf]

/-- [C5] With strictly positive `sigma`, the `cdf` computed by the `erf`
identity is non-decreasing in each coordinate of `x`, and `cdf mu = 0.5`
elementwise. -/
theorem C5_cdf_monotone_median {n : ℕ} (mu sigma : Fin n → ℝ) (dim : Option ℕ)
    (hpos : ∀ i, 0 < sigma i) :
    (∀ x y : Fin n → ℝ, (∀ i, x i ≤ y i) → ∀ i,
        MultivariateIndependentGaussian.cdf ⟨mu, sigma, dim⟩ x i ≤
          MultivariateIndependentGaussian.cdf ⟨mu, sigma, dim⟩ y i) ∧
      (∀ i, MultivariateIndependentGaussian.cdf ⟨mu, sigma, dim⟩ mu i = 0.5) := by
  constructor
  · intro x y hxy i
    unfold MultivariateIndependentGaussian.cdf
    have hden : 0 < sigma i * Real.sqrt 2 :=
      mul_pos (hpos i) (Real.sqrt_pos.mpr (by norm_num))
    have hu : (x i - mu i) / (sigma i * Real.sqrt 2) ≤
        (y i - mu i) / (sigma i * Real.sqrt 2) :=
      (div_le_div_right hden).mpr (by linarith [hxy i])
    have := erf_monotone hu
    linarith
  · intro i
    unfold MultivariateIndependentGaussian.cdf
    rw [sub_self, zero_div, erf_zero]
    norm_num

/-- Witness for [C5] at `n = 1`, `mu = 0`, `sigma = 1`. -/
theorem C5_cdf_monotone_median_witness :
    (∀ i : Fin 1, (0:ℝ) < 1) ∧
      ((∀ x y : Fin 1 → ℝ, (∀ i, x i ≤ y i) → ∀ i,
          MultivariateIndependentGaussian.cdf
              (⟨fun _ => 0, fun _ => 1, some 1⟩ :
                MultivariateIndependentGaussian 1) x i ≤
            MultivariateIndependentGaussian.cdf
              (⟨fun _ => 0, fun _ => 1, some 1⟩ :
                MultivariateIndependentGaussian 1) y i) ∧
        (∀ i, MultivariateIndependentGaussian.cdf
            (⟨fun _ => 0, fun _ => 1, some 1⟩ :
              MultivariateIndependentGaussian 1) (fun _ => 0) i = 0.5)) :=
  ⟨fun _ => one_pos,
    C5_cdf_monotone_median (fun _ => 0) (fun _ => 1) (some 1) (fun _ => one_pos)⟩

/-- [C8] With `dim` provided (and equal to the event length), `mean` returns
`mu` unchanged and `stddev` returns `sigma` broadcast onto the identity: a
full `dim×dim` diagonal matrix whose `(i,i)` entry is `sigma i` and whose
off-diagonal entries are `0`. -/
theorem C8_mean_stddev {n : ℕ} (mu sigma : Fin n → ℝ) :
    MultivariateIndependentGaussian.mean ⟨mu, sigma, some n⟩ = mu ∧
      ∃ M : Fin n → Fin n → ℝ,
        MultivariateIndependentGaussian.stddev ⟨mu, sigma, some n⟩ = some M ∧
          (∀ i j, M i j = sigma j * (if i = j then (1:ℝ) else 0)) ∧
          (∀ i, M i i = sigma i) ∧
          (∀ i j, i ≠ j → M i j = 0) := by
  refine ⟨rfl, fun i j => sigma j * (if i = j then (1:ℝ) else 0), ?_, ?_, ?_, ?_⟩
  · simp [MultivariateIndependentGaussian.stddev]
  · intro i j; rfl
  · intro i; simp
  · intro i j hij; simp [hij]

/-- Witness for [C8] at `n = 1`, `sigma = 1`. -/
theorem C8_mean_stddev_witness :
    MultivariateIndependentGaussian.mean
        (⟨fun _ => 0, fun _ => 1, some 1⟩ : MultivariateIndependentGaussian 1) =
        (fun _ => 0) ∧
      ∃ M : Fin 1 → Fin 1 → ℝ,
        MultivariateIndependentGaussian.stddev
            (⟨fun _ => 0, fun _ => 1, some 1⟩ :
              MultivariateIndependentGaussian 1) = some M ∧
          (∀ i j, M i j = (fun _ : Fin 1 => (1:ℝ)) j * (if i = j then (1:ℝ) else 0)) ∧
          (∀ i, M i i = 1) ∧
          (∀ i j, i ≠ j → M i j = 0) :=
  C8_mean_stddev (fun _ => 0) (fun _ => 1)

/-- [C10] Every operation except `stddev` is independent of the `dim` field
(none of them reads `dim`), while `stddev` is undefined when `dim` is
`None`.  (`batch_shape` and `event_shape` are functions of `mu`'s shape
alone — see `migBatchShape`, `migEventShape` — so they read no `dim`
either.) -/
theorem C10_dim_only_used_by_stddev {n : ℕ} (mu sigma : Fin n → ℝ)
    (d d' : Option ℕ) :
    (∀ x, MultivariateIndependentGaussian.log_prob ⟨mu, sigma, d⟩ x =
        MultivariateIndependentGaussian.log_prob ⟨mu, sigma, d'⟩ x) ∧
      MultivariateIndependentGaussian.mean ⟨mu, sigma, d⟩ =
        MultivariateIndependentGaussian.mean ⟨mu, sigma, d'⟩ ∧
      (∀ x, MultivariateIndependentGaussian.cdf ⟨mu, sigma, d⟩ x =
          MultivariateIndependentGaussian.cdf ⟨mu, sigma, d'⟩ x) ∧
      (∀ z, MultivariateIndependentGaussian.sample ⟨mu, sigma, d⟩ z =
          MultivariateIndependentGaussian.sample ⟨mu, sigma, d'⟩ z) ∧
      (∀ z, MultivariateIndependentGaussian.sample_rep ⟨mu, sigma, d⟩ z =
          MultivariateIndependentGaussian.sample_rep ⟨mu, sigma, d'⟩ z) ∧
      MultivariateIndependentGaussian.event_dim ⟨mu, sigma, d⟩ =
        MultivariateIndependentGaussian.event_dim ⟨mu, sigma, d'⟩ ∧
      MultivariateIndependentGaussian.stddev ⟨mu, sigma, none⟩ = none :=
  ⟨fun _ => rfl, rfl, fun _ => rfl, fun _ => rfl, fun _ => rfl, rfl, rfl⟩

/-- [C4] Code behaviour at `mu` of shape `(2, 3)` (so `dim = 3`, one batch
axis of length 2): the code's `batch_shape` is the full shape `[2, 3]` and
its `event_shape` is `mu.shape[:-1] = [2]`, while the docstring
(`mu` has shape `(*batch_shape, *event_shape)`) together with
`event_dim = 1` requires `batch_shape = [2]` and `event_shape = [3]`;
`log_prob`'s output shape `[2]` does match the claim. -/
theorem C4_shape_code_behavior :
    migBatchShape [2, 3] = [2, 3] ∧ migEventShape [2, 3] = [2] ∧
      migLogProbShape [2, 3] = [2] ∧
      MultivariateIndependentGaussian.event_dim
        (⟨fun _ => 0, fun _ => 1, some 3⟩ : MultivariateIndependentGaussian 3) = 1 :=
  ⟨rfl, rfl, rfl, rfl⟩

/-- Parameters of a `gluon.nn.Dense(o, flatten=False)` layer with input
width `m`: applied to the last axis, `y = x·Wᵗ + b`. -/
structure DenseParams (m o : ℕ) where
  weight : Fin o → Fin m → ℝ
  bias : Fin o → ℝ

/-- A `Dense(o, flatten=False)` layer applied to a tensor of shape
`(d, m)` along the last axis.  `Dropout` (appended when
`dropout_rate > 0`) is the identity outside training mode and is modelled
as such; the claims concern the deterministic (inference) semantics. -/
def dense {m o d : ℕ} (p : DenseParams m o) (x : Fin d → Fin m → ℝ) :
    Fin d → Fin o → ℝ :=
  fun i j => (∑ k, p.weight j k * x i k) + p.bias j

/-- The state of a `GPArgProj` after `__init__`: the hyperparameters stored
on `self` plus the learned parameters of the three projection layers
(`proj[0] = mu`, `proj[1] = sigma`, `proj[2] = w`; the `sigma` projection
consumes width `hidden + 1` because its input is `x` concatenated with one
extra scalar).  `hidden` is the input width that lazy shape inference
resolves at first call. -/
structure GPArgProj (hidden rank : ℕ) where
  sigma_init : ℝ
  sigma_minimum : ℝ
  mu_ratio : ℝ
  dropout_rate : ℝ
  W_ratio : ℝ
  proj_mu : DenseParams hidden 1
  proj_sigma : DenseParams (hidden + 1) 1
  proj_w : DenseParams hidden rank

/-- `GPArgProj.__init__(rank, sigma_init, sigma_minimum, mu_ratio,
dropout_rate)`: stores every hyperparameter unchanged and sets
`W_ratio = 1.0`.  The `validated()` decorator it carries (from
`gluonts.core.component`, not under `src/`) is, per the spec (§9),
annotation-driven validation; the annotations here are plain `int`/`float`,
so its effect is captured by the argument types and the body performs no
range checks.  The freshly created `Dense` layers are modelled by their
initialized parameters, passed in. -/
def mkGPArgProj (hidden rank : ℕ)
    (sigma_init sigma_minimum mu_ratio dropout_rate : ℝ)
    (proj_mu : DenseParams hidden 1) (proj_sigma : DenseParams (hidden + 1) 1)
    (proj_w : DenseParams hidden rank) : GPArgProj hidden rank :=
  { sigma_init := sigma_init
    sigma_minimum := sigma_minimum
    mu_ratio := mu_ratio
    dropout_rate := dropout_rate
    W_ratio := 1.0
    proj_mu := proj_mu
    proj_sigma := proj_sigma
    proj_w := proj_w }

/-- The `(mu, D, W)` triple returned by `GPArgProj.hybrid_forward`. -/
structure GPProjOutput (d rank : ℕ) where
  mu : Fin d → ℝ
  D : Fin d → ℝ
  W : Fin d → Fin rank → ℝ

namespace GPArgProj

/-- `W_matrix = self.proj[2](x) * self.W_ratio`. -/
def W_matrix {hidden rank d : ℕ} (p : GPArgProj hidden rank)
    (x : Fin d → Fin hidden → ℝ) : Fin d → Fin rank → ℝ :=
  fun i j => dense p.proj_w x i j * p.W_ratio

/-- `x_plus_w = F.concat(x, W_matrix.square().sum(axis=-1, keepdims=True))`:
`x` with one extra trailing scalar per row, the row-wise sum of squares of
`W_matrix`. -/
def x_plus_w {hidden rank d : ℕ} (p : GPArgProj hidden rank)
    (x : Fin d → Fin hidden → ℝ) : Fin d → Fin (hidden + 1) → ℝ :=
  fun i k =>
    if hk : (k : ℕ) < hidden then x i ⟨k, hk⟩
    else ∑ j, (p.W_matrix x i j) ^ 2

/-- `d_bias = 0.0 if self.sigma_init == 0.0 else inv_softplus(self.sigma_init ** 2)`. -/
def d_bias {hidden rank : ℕ} (p : GPArgProj hidden rank) : ℝ :=
  if p.sigma_init = 0.0 then 0.0 else inv_softplus (p.sigma_init ^ 2)

/-- `GPArgProj.hybrid_forward(x)`: returns `(mu, D, W)` with
`mu = proj[0](x).squeeze(-1) * mu_ratio`,
`D = softrelu(proj[1](x_plus_w).squeeze(-1) + d_bias) + sigma_minimum`,
`W = W_matrix`. -/
def hybrid_forward {hidden rank d : ℕ} (p : GPArgProj hidden rank)
    (x : Fin d → Fin hidden → ℝ) : GPProjOutput d rank :=
  ⟨fun i => dense p.proj_mu x i 0 * p.mu_ratio,
    fun i => softplus (dense p.proj_sigma (p.x_plus_w x) i 0 + p.d_bias)
      + p.sigma_minimum,
    p.W_matrix x⟩

end GPArgProj

/-- `MultivariateIndependentGaussianOutput.domain_map(F, mu, sigma)`:
returns `(mu, softplus(F, sigma))`. -/
def MultivariateIndependentGaussianOutput.domain_map {n : ℕ}
    (mu sigma : Fin n → ℝ) : (Fin n → ℝ) × (Fin n → ℝ) :=
  (mu, fun i => softplus (sigma i))

/-- `softplus` is strictly positive: `log(1 + exp z) > 0` since `exp z > 0`. -/
theorem softplus_pos (z : ℝ) : 0 < softplus z :=
  Real.log_pos (by linarith [Real.exp_pos z])

/-- [C1] For every input and every projector with `sigma_minimum > 0`,
every entry of the returned diagonal `D` strictly exceeds `sigma_minimum`;
and the diagonal variant's `domain_map` returns a `sigma` with every entry
strictly positive. -/
theorem C1_positivity {hidden rank d n : ℕ} (p : GPArgProj hidden rank)
    (x : Fin d → Fin hidden → ℝ) (mu sigma : Fin n → ℝ)
    (hmin : 0 < p.sigma_minimum) :
    (∀ i, p.sigma_minimum < (p.hybrid_forward x).D i) ∧
      (∀ i, 0 <
        (MultivariateIndependentGaussianOutput.domain_map mu sigma).2 i) := by
  constructor
  · intro i
    have hD : (p.hybrid_forward x).D i =
        softplus (dense p.proj_sigma (p.x_plus_w x) i 0 + p.d_bias)
          + p.sigma_minimum := rfl
    rw [hD]
    have := softplus_pos (dense p.proj_sigma (p.x_plus_w x) i 0 + p.d_bias)
    linarith
  · intro i
    exact softplus_pos (sigma i)

/-- All-zero `Dense` parameters, used to instantiate witnesses. -/
def zeroDense (m o : ℕ) : DenseParams m o := ⟨fun _ _ => 0, fun _ => 0⟩

/-- Witness for [C1]: `hidden = rank = d = n = 1`, zero weights,
`sigma_minimum = 1 > 0`. -/
theorem C1_positivity_witness :
    0 < (mkGPArgProj 1 1 1 1 1 0 (zeroDense 1 1) (zeroDense 2 1)
        (zeroDense 1 1)).sigma_minimum ∧
      ((∀ i, (mkGPArgProj 1 1 1 1 1 0 (zeroDense 1 1) (zeroDense 2 1)
            (zeroDense 1 1)).sigma_minimum <
          ((mkGPArgProj 1 1 1 1 1 0 (zeroDense 1 1) (zeroDense 2 1)
            (zeroDense 1 1)).hybrid_forward
              (fun _ _ : Fin 1 => (0:ℝ))).D i) ∧
        (∀ i : Fin 1, 0 <
          (MultivariateIndependentGaussianOutput.domain_map
            (fun _ : Fin 1 => (0:ℝ)) (fun _ : Fin 1 => (0:ℝ))).2 i)) :=
  ⟨by norm_num [mkGPArgProj],
    C1_positivity
      (mkGPArgProj 1 1 1 1 1 0 (zeroDense 1 1) (zeroDense 2 1) (zeroDense 1 1))
      (fun _ _ : Fin 1 => (0:ℝ)) (fun _ : Fin 1 => (0:ℝ))
      (fun _ : Fin 1 => (0:ℝ)) (by norm_num [mkGPArgProj])⟩

/-- [C2 claim-side] The forward computation as the claim states it:
`mu = mu_ratio · (mu projection of x)`, `W = w projection of x`, and
`D = softplus(s + bias) + sigma_minimum` where `s` is the sigma projection
of `x` concatenated with the row-wise sum of squares of `W` (one extra
scalar per row) and `bias = inv_softplus(sigma_init²)` when
`sigma_init ≠ 0`, else `0`. -/
def claimGPForward {hidden rank d : ℕ}
    (sigma_init sigma_minimum mu_ratio : ℝ)
    (pm : DenseParams hidden 1) (ps : DenseParams (hidden + 1) 1)
    (pw : DenseParams hidden rank) (x : Fin d → Fin hidden → ℝ) :
    GPProjOutput d rank :=
  let W : Fin d → Fin rank → ℝ := fun i j => dense pw x i j
  let xcat : Fin d → Fin (hidden + 1) → ℝ := fun i k =>
    if hk : (k : ℕ) < hidden then x i ⟨k, hk⟩ else ∑ j, (W i j) ^ 2
  let bias : ℝ := if sigma_init ≠ 0.0 then inv_softplus (sigma_init ^ 2) else 0.0
  ⟨fun i => mu_ratio * dense pm x i 0,
    fun i => softplus (dense ps xcat i 0 + bias) + sigma_minimum,
    W⟩

/-- [C2] For every constructed projector and every input `x`,
`hybrid_forward` computes exactly the `(mu, D, W)` the claim describes
(`W_ratio` being fixed to `1.0` at construction, `W` is the bare `w`
projection). -/
theorem C2_forward_formula {hidden rank d : ℕ}
    (sigma_init sigma_minimum mu_ratio dropout_rate : ℝ)
    (pm : DenseParams hidden 1) (ps : DenseParams (hidden + 1) 1)
    (pw : DenseParams hidden rank) (x : Fin d → Fin hidden → ℝ) :
    (mkGPArgProj hidden rank sigma_init sigma_minimum mu_ratio dropout_rate
        pm ps pw).hybrid_forward x =
      claimGPForward sigma_init sigma_minimum mu_ratio pm ps pw x := by
  unfold GPArgProj.hybrid_forward claimGPForward
  have hW : (mkGPArgProj hidden rank sigma_init sigma_minimum mu_ratio
      dropout_rate pm ps pw).W_matrix x = fun i j => dense pw x i j := by
    funext i j
    norm_num [GPArgProj.W_matrix, mkGPArgProj]
  have hx : (mkGPArgProj hidden rank sigma_init sigma_minimum mu_ratio
      dropout_rate pm ps pw).x_plus_w x = fun i (k : Fin (hidden + 1)) =>
        if hk : (k : ℕ) < hidden then x i ⟨k, hk⟩
        else ∑ j, (dense pw x i j) ^ 2 := by
    funext i k
    simp [GPArgProj.x_plus_w, hW]
  have hbias : (mkGPArgProj hidden rank sigma_init sigma_minimum mu_ratio
      dropout_rate pm ps pw).d_bias =
        if sigma_init ≠ 0.0 then inv_softplus (sigma_init ^ 2) else 0.0 := by
    simp only [GPArgProj.d_bias, mkGPArgProj, ne_eq, ite_not]
  rw [hW, hx, hbias]
  refine congrArg₂ (GPProjOutput.mk · · _) ?_ ?_
  · funext i
    simp [mkGPArgProj, mul_comm]
  · funext i
    rfl

/-- [C6 counterexample] Constructing `GPArgProj` with `rank = 0`,
`sigma_minimum = -1` and `dropout_rate = 1.5` does not fail: the body of
`__init__` performs no range validation, the construction succeeds and the
invalid hyperparameters are stored unchanged. -/
theorem C6_counterexample_no_configuration_error :
    (mkGPArgProj 1 0 1.0 (-1.0) 1.0 1.5 (zeroDense 1 1) (zeroDense 2 1)
        (zeroDense 1 0)).sigma_minimum = -1.0 ∧
      (mkGPArgProj 1 0 1.0 (-1.0) 1.0 1.5 (zeroDense 1 1) (zeroDense 2 1)
        (zeroDense 1 0)).dropout_rate = 1.5 :=
  ⟨rfl, rfl⟩

/-- [C6 amended] `GPArgProj.__init__` validates nothing beyond argument
types: for every hyperparameter combination — including `rank < 1`,
`dropout_rate` outside `[0,1)` and negative `sigma_minimum` — construction
succeeds, stores every hyperparameter unchanged and sets `W_ratio = 1.0`;
no `ConfigurationError` is raised before the forward pass. -/
theorem C6_amended_no_range_validation (hidden rank : ℕ)
    (sigma_init sigma_minimum mu_ratio dropout_rate : ℝ)
    (pm : DenseParams hidden 1) (ps : DenseParams (hidden + 1) 1)
    (pw : DenseParams hidden rank) :
    (mkGPArgProj hidden rank sigma_init sigma_minimum mu_ratio dropout_rate
        pm ps pw).sigma_init = sigma_init ∧
      (mkGPArgProj hidden rank sigma_init sigma_minimum mu_ratio dropout_rate
        pm ps pw).sigma_minimum = sigma_minimum ∧
      (mkGPArgProj hidden rank sigma_init sigma_minimum mu_ratio dropout_rate
        pm ps pw).mu_ratio = mu_ratio ∧
      (mkGPArgProj hidden rank sigma_init sigma_minimum mu_ratio dropout_rate
        pm ps pw).dropout_rate = dropout_rate ∧
      (mkGPArgProj hidden rank sigma_init sigma_minimum mu_ratio dropout_rate
        pm ps pw).W_ratio = 1.0 :=
  ⟨rfl, rfl, rfl, rfl, rfl⟩

/-- Constructor-argument record of a
`LowrankMultivariateGaussian(rank, mu, D, W, dim)` (the class itself lives
in `lowrank_multivariate_gaussian.py`, outside `src/`; [C7] only concerns
which constructor is called with which arguments). -/
structure LowrankMultivariateGaussian (d rank : ℕ) where
  mu : Fin d → ℝ
  D : Fin d → ℝ
  W : Fin d → Fin rank → ℝ
  dim : Option ℕ

/-- Constructor-argument record of `bijection.AffineTransformation(scale=·)`. -/
structure AffineTransformation (d : ℕ) where
  scale : Fin d → ℝ

/-- The value returned by `LowrankGPOutput.distribution`: either the bare
base distribution, or the base distribution wrapped in a
`TransformedDistribution` with one affine transformation. -/
inductive GPDistribution (d rank : ℕ) where
  | base : LowrankMultivariateGaussian d rank → GPDistribution d rank
  | transformed : LowrankMultivariateGaussian d rank → AffineTransformation d →
      GPDistribution d rank

/-- The state of a `LowrankGPOutput` after `__init__`: stores the
hyperparameters unchanged and sets `mu_bias = 0.0`. -/
structure LowrankGPOutput where
  rank : ℕ
  dim : Option ℕ
  sigma_init : ℝ
  mu_ratio : ℝ
  dropout_rate : ℝ
  mu_bias : ℝ

/-- `LowrankGPOutput.__init__(rank, dim, sigma_init, mu_ratio, dropout_rate)`. -/
def mkLowrankGPOutput (rank : ℕ) (dim : Option ℕ)
    (sigma_init mu_ratio dropout_rate : ℝ) : LowrankGPOutput :=
  { rank := rank
    dim := dim
    sigma_init := sigma_init
    mu_ratio := mu_ratio
    dropout_rate := dropout_rate
    mu_bias := 0.0 }

namespace LowrankGPOutput

/-- `get_args_proj`: returns
`GPArgProj(rank=self.rank, mu_ratio=self.mu_ratio, sigma_init=self.sigma_init,
dropout_rate=self.dropout_rate)` — `sigma_minimum` is not passed, so the
module-default floor applies.  The fresh layers are modelled by their
initialized parameters, passed in. -/
def get_args_proj (o : LowrankGPOutput) (hidden : ℕ)
    (pm : DenseParams hidden 1) (ps : DenseParams (hidden + 1) 1)
    (pw : DenseParams hidden o.rank) : GPArgProj hidden o.rank :=
  mkGPArgProj hidden o.rank o.sigma_init defaultSigmaMinimum o.mu_ratio
    o.dropout_rate pm ps pw

/-- `distribution(distr_args, scale=None, dim=None)`: builds
`LowrankMultivariateGaussian(self.rank, *distr_args, dim)` and wraps it in a
`TransformedDistribution` with `AffineTransformation(scale=scale)` exactly
when `scale` is not `None`. -/
def distribution (o : LowrankGPOutput) {d : ℕ}
    (distr_args : (Fin d → ℝ) × (Fin d → ℝ) × (Fin d → Fin o.rank → ℝ))
    (scale : Option (Fin d → ℝ)) (dim : Option ℕ) : GPDistribution d o.rank :=
  let dist : LowrankMultivariateGaussian d o.rank :=
    ⟨distr_args.1, distr_args.2.1, distr_args.2.2, dim⟩
  match scale with
  | none => .base dist
  | some s => .transformed dist ⟨s⟩

end LowrankGPOutput

/-- [C7] `distribution` returns the bare `LowrankMultivariateGaussian` built
from the arguments when `scale` is `None`, and the same base distribution
wrapped in a `TransformedDistribution` whose affine transformation carries
the given `scale` otherwise. -/
theorem C7_distribution_scale_dispatch (o : LowrankGPOutput) {d : ℕ}
    (mu D : Fin d → ℝ) (W : Fin d → Fin o.rank → ℝ) (dim : Option ℕ) :
    (o.distribution (mu, D, W) none dim =
        GPDistribution.base ⟨mu, D, W, dim⟩) ∧
      (∀ s : Fin d → ℝ, o.distribution (mu, D, W) (some s) dim =
        GPDistribution.transformed ⟨mu, D, W, dim⟩ ⟨s⟩) :=
  ⟨rfl, fun _ => rfl⟩

/-- [C9] Every projector obtained through `get_args_proj` carries the
module-default `sigma_minimum` floor (the adapter passes only `rank`,
`mu_ratio`, `sigma_init` and `dropout_rate`, and `LowrankGPOutput` stores no
`sigma_minimum` field at all, so the floor is not configurable through the
adapter). -/
theorem C9_adapter_default_sigma_minimum (o : LowrankGPOutput) (hidden : ℕ)
    (pm : DenseParams hidden 1) (ps : DenseParams (hidden + 1) 1)
    (pw : DenseParams hidden o.rank) :
    (o.get_args_proj hidden pm ps pw).sigma_minimum = defaultSigmaMinimum ∧
      (o.get_args_proj hidden pm ps pw).sigma_init = o.sigma_init ∧
      (o.get_args_proj hidden pm ps pw).mu_ratio = o.mu_ratio ∧
      (o.get_args_proj hidden pm ps pw).dropout_rate = o.dropout_rate :=
  ⟨rfl, rfl, rfl, rfl⟩
